import Mathlib

/-!
Verification of the monad checkpoint/alert-key/deny-address store subsystem
(packages `checkpoint` and `database` of nao20010128nao/monad).

The embedded key-value engine (goleveldb) is modelled, per the spec's
interface view, as an ordered byte-key/byte-value durable store: an
association list kept in ascending byte-lexicographic key order (the
engine's default comparer), with point reads/writes and iteration.
Byte strings (Go `[]byte`) are modelled as `List Nat`, one entry per byte.
Stored values are modelled as `String` (Go converts its `string` values to
`[]byte` and back bijectively, so nothing is lost).

The external collaborators that the spec declares out of scope
(go-flags/`flag` parsing, `monautil.AppDataDir`, the `chaincfg` parameter
tables) enter the model as explicit parameters or as small structures
modelled from the spec, marked as such below.
-/

/-- A byte string (Go `[]byte`), one `Nat` per byte. -/
abbrev Bytes := List Nat

/-- Contents of one goleveldb namespace: key/value pairs kept in ascending
byte-lexicographic key order (the engine's natural iteration order). -/
abbrev LDB := List (Bytes × String)

/-- Byte-lexicographic strict order on keys (Go `bytes.Compare a b < 0`,
goleveldb's default key comparer). -/
def keyLt : Bytes → Bytes → Bool
  | [], [] => false
  | [], _ :: _ => true
  | _ :: _, [] => false
  | a :: as, b :: bs => if a < b then true else if b < a then false else keyLt as bs

/-- Go `db.Get(key, nil)`: the stored value, or `none` for `ErrNotFound`
(goleveldb returns a `nil` value slice together with the error). -/
def dbGet : LDB → Bytes → Option String
  | [], _ => none
  | e :: rest, k => if e.1 = k then some e.2 else dbGet rest k

/-- Go `db.Put(key, value, nil)`: insert or overwrite, keeping the keys in
ascending byte order. -/
def dbPut : LDB → Bytes → String → LDB
  | [], k, v => [(k, v)]
  | e :: rest, k, v =>
    if keyLt k e.1 then (k, v) :: e :: rest
    else if k = e.1 then (k, v) :: rest
    else e :: dbPut rest k v

/-- Go `db.Delete(key, nil)`: remove the key if present (keys are unique). -/
def dbDelete : LDB → Bytes → LDB
  | [], _ => []
  | e :: rest, k => if k = e.1 then rest else e :: dbDelete rest k

/-- ASCII code of the decimal digit `d` (used for `d < 10`). -/
def digitByte (d : Nat) : Nat := 48 + d

/-- The `w`-byte zero-padded base-10 rendering of `n`, most significant
digit first: the byte string Go's `fmt.Sprintf` produces for a zero-padding
width of `w` whenever `n < 10 ^ w` (the only way the sources use it: an
`int64` magnitude always has at most 19 digits). -/
def encodeDigits : Nat → Nat → Bytes
  | 0, _ => []
  | w + 1, n => digitByte (n / 10 ^ w) :: encodeDigits w (n % 10 ^ w)

/-- Go `[]byte(fmt.Sprintf("%020d", h))` for an `int64` height `h`:
20 bytes in total, zero padded; a negative height gets a leading `-`
(byte 45) followed by 19 padded digits (`|h| ≤ 2 ^ 63 < 10 ^ 19`, so the
digit count always fits the width). -/
def sprintf020 (h : Int) : Bytes :=
  if 0 ≤ h then encodeDigits 20 h.toNat else 45 :: encodeDigits 19 (-h).toNat

/-- Decimal value of an ASCII byte, `none` if the byte is not `0`..`9`. -/
def digitVal (b : Nat) : Option Nat :=
  if 48 ≤ b ∧ b ≤ 57 then some (b - 48) else none

/-- Accumulating decimal parse of a digit string, failing on the first
non-digit byte (the digit loop of Go `strconv.ParseUint`). -/
def parseDigitsAux : Bytes → Nat → Option Nat
  | [], acc => some acc
  | b :: rest, acc =>
    match digitVal b with
    | none => none
    | some d => parseDigitsAux rest (acc * 10 + d)

/-- Parse of a nonempty all-digit byte string; `none` on empty input or on
any non-digit byte (Go `strconv.ParseUint` with base 10). -/
def parseDigits (s : Bytes) : Option Nat :=
  match s with
  | [] => none
  | _ :: _ => parseDigitsAux s 0

/-- Split an optional leading sign byte (`-` = 45, `+` = 43) off a byte
string, as Go `strconv.ParseInt` does; the flag is `true` for `-`. -/
def signSplit (s : Bytes) : Bool × Bytes :=
  match s with
  | [] => (false, [])
  | b :: rest => if b = 45 then (true, rest) else if b = 43 then (false, rest) else (false, s)

/-- The value Go's `strconv.ParseInt(s, 10, 64)` reports, with the error
discarded as the sources do: `0` on a syntax error (empty input, sign
without digits, or a non-digit byte), and the clamped boundary value
`2 ^ 63 - 1` (resp. `-2 ^ 63`) when the digits read a number outside the
signed 64-bit range. -/
def parseInt64 (s : Bytes) : Int :=
  match s with
  | [] => 0
  | _ :: _ =>
    let p := signSplit s
    match parseDigits p.2 with
    | none => 0
    | some v =>
      if p.1 then
        if v ≤ 2 ^ 63 then -(v : Int) else -(2 ^ 63)
      else
        if v ≤ 2 ^ 63 - 1 then (v : Int) else 2 ^ 63 - 1

/-- Go `filepath.Join` of the three path segments (Unix separator), as used
by every `Get*DbPath` function. -/
def joinPath (root dir name : String) : String := root ++ "/" ++ dir ++ "/" ++ name

/-- Database directory name `<pfx>_<dbtype>` with the fixed `defaultDbType`
of both packages, `"leveldb"`. -/
def dbDirName (pfx : String) : String := pfx ++ "_" ++ "leveldb"

/-- `Except.isOk` spelled out, to state which configuration outcomes
produce a value. -/
def exceptOk : Except ε α → Bool
  | Except.ok _ => true
  | Except.error _ => false

/-- Modelled from the spec: the wire-level identifiers of the four
supported networks (`wire.BitcoinNet` values; their numeric magic values
are irrelevant to this subsystem). -/
inductive BitcoinNet
  | mainNet
  | testNet4
  | regTestNet
  | simNet
  deriving DecidableEq

/-- Modelled from the spec: the fields of the external `chaincfg.Params`
tables consumed by this subsystem — the wire identifier, the canonical
network name, and the two per-network alert public keys. -/
structure Params where
  net : BitcoinNet
  name : String
  alertPubMainKey : Bytes
  alertPubSubKey : Bytes
  deriving DecidableEq

/-- Modelled from the spec: `chaincfg.MainNetParams` (canonical name
`"mainnet"`); the alert keys are abstract placeholder byte strings, the
real values being external secp256k1 public keys. -/
def mainNetParams : Params := ⟨BitcoinNet.mainNet, "mainnet", [0, 0], [0, 1]⟩

/-- Modelled from the spec: `chaincfg.TestNet4Params` — the canonical name
is of the `"testnet4"` generation and deliberately differs from the
`"testnet"` directory name used on disk. -/
def testNet4Params : Params := ⟨BitcoinNet.testNet4, "testnet4", [1, 0], [1, 1]⟩

/-- Modelled from the spec: `chaincfg.RegressionNetParams` (canonical name
`"regtest"`). -/
def regressionNetParams : Params := ⟨BitcoinNet.regTestNet, "regtest", [2, 0], [2, 1]⟩

/-- Modelled from the spec: `chaincfg.SimNetParams` (canonical name
`"simnet"`). -/
def simNetParams : Params := ⟨BitcoinNet.simNet, "simnet", [3, 0], [3, 1]⟩

/-- One user-checkpoint store mutation, for stating properties of operation
sequences. -/
inductive UcOp
  | add (height : Int) (hash : String)
  | del (height : Int)
  deriving DecidableEq

/-- Bound check for one operation: an insert must carry a non-negative
`int64` height; deletes are unrestricted. -/
def ucOpOkB : UcOp → Bool
  | UcOp.add h _ => decide (0 ≤ h) && decide (h < 2 ^ 63)
  | UcOp.del _ => true

/-- Bound check for a whole operation sequence. -/
def ucOpsOk (ops : List UcOp) : Bool := ops.all ucOpOkB

namespace Checkpoint

/-- The options of package `checkpoint`'s `config` struct, as they stand
after go-flags parsing (the parsing itself is the external go-flags
collaborator; a parse failure aborts `loadConfig` before the network
check). -/
structure Config where
  dataDir : String
  testNet4 : Bool
  regressionTest : Bool
  simNet : Bool
  deriving DecidableEq

/-- The network mutual-exclusion validation of `loadConfig` (package
`checkpoint`), applied to an already-parsed configuration.  Note that
`numNets` counts only the testnet and simnet flags; the regtest flag is
not counted. -/
def loadConfig (cfg : Config) : Except String Config :=
  let numNets := (if cfg.testNet4 then 1 else 0) + (if cfg.simNet then 1 else 0)
  if numNets > 1 then
    Except.error "loadConfig: The testnet and simnet params cannot be used together -- choose one of the two"
  else
    Except.ok cfg

/-- `netName` (package `checkpoint`): the directory name used for a
network, forced to `"testnet"` when the network is TestNet4 and the
canonical `chaincfg` name otherwise. -/
def netName (chainParams : Params) : String :=
  match chainParams.net with
  | BitcoinNet.testNet4 => "testnet"
  | _ => chainParams.name

/-- The `activeNetParams` update sequence shared by the three
`Get*DbPath` functions of package `checkpoint`: each selected flag in turn
overwrites the active network parameters (simnet last), and with no flag
selected the previous value is kept. -/
def resolveNetParams (cfg : Config) (active : Params) : Params :=
  let a1 := if cfg.testNet4 then testNet4Params else active
  let a2 := if cfg.regressionTest then regressionNetParams else a1
  if cfg.simNet then simNetParams else a2

/-- `GetUserCheckpointDbPath` (package `checkpoint`): reload the
configuration — `os.Exit(1)` on a configuration error, modelled as
`Except.error ()` — then update `activeNetParams` and build
`<dataRoot>/<netName>/usercheckpoints_leveldb`.  `dataRoot` stands for the
package's `defaultDataDir` (resolved externally by `monautil.AppDataDir`);
the result carries the updated `activeNetParams` state. -/
def getUserCheckpointDbPath (dataRoot : String) (cfg : Config) (active : Params) :
    Except Unit (String × Params) :=
  match loadConfig cfg with
  | Except.error _ => Except.error ()
  | Except.ok c =>
    let p := resolveNetParams c active
    Except.ok (joinPath dataRoot (netName p) (dbDirName "usercheckpoints"), p)

/-- `GetVolatileCheckpointDbPath` (package `checkpoint`). -/
def getVolatileCheckpointDbPath (dataRoot : String) (cfg : Config) (active : Params) :
    Except Unit (String × Params) :=
  match loadConfig cfg with
  | Except.error _ => Except.error ()
  | Except.ok c =>
    let p := resolveNetParams c active
    Except.ok (joinPath dataRoot (netName p) (dbDirName "volatilecheckpoints"), p)

/-- `GetAlertKeyDbPath` (package `checkpoint`). -/
def getAlertKeyDbPath (dataRoot : String) (cfg : Config) (active : Params) :
    Except Unit (String × Params) :=
  match loadConfig cfg with
  | Except.error _ => Except.error ()
  | Except.ok c =>
    let p := resolveNetParams c active
    Except.ok (joinPath dataRoot (netName p) (dbDirName "alertkey"), p)

/-- `UserCheckpoint.Add` at the DB level: write the zero-padded height key
with the hash as value (the write error is discarded in the source). -/
def ucAdd (db : LDB) (height : Int) (hash : String) : LDB :=
  dbPut db (sprintf020 height) hash

/-- `UserCheckpoint.Delete` at the DB level. -/
def ucDelete (db : LDB) (height : Int) : LDB :=
  dbDelete db (sprintf020 height)

/-- `UserCheckpoint.GetMaxCheckpointHeight` at the DB level: seek the
iterator to the last key; `0` when the namespace is empty; otherwise the
error-discarding `strconv.ParseInt` of that key. -/
def ucGetMaxCheckpointHeight (db : LDB) : Int :=
  match db.getLast? with
  | none => 0
  | some e => parseInt64 e.1

/-- The heights currently stored in a user-checkpoint namespace, as decoded
from its keys in iteration order. -/
def storedHeights (db : LDB) : List Int := db.map fun e => parseInt64 e.1

/-- Run a sequence of `UserCheckpoint` mutations (package `checkpoint`). -/
def runUcOps (db : LDB) : List UcOp → LDB
  | [] => db
  | UcOp.add h s :: rest => runUcOps (ucAdd db h s) rest
  | UcOp.del h :: rest => runUcOps (ucDelete db h) rest

/-- `VolatileCheckpoint.Set` at the DB level (same key encoding as
`UserCheckpoint.Add`). -/
def vcSet (db : LDB) (height : Int) (hash : String) : LDB :=
  dbPut db (sprintf020 height) hash

/-- `VolatileCheckpoint.ClearDB` at the DB level: iterate the snapshot's
keys in order, deleting each; deletes cannot fail in the model, so the
loop visits every key. -/
def vcClearDB (db : LDB) : LDB :=
  (db.map Prod.fst).foldl dbDelete db

/-- `AlertKey.Set` at the DB level: unconditionally writes the literal
`"true"` (the key argument is Go `[]byte(key)`). -/
def akSet (db : LDB) (key : Bytes) : LDB := dbPut db key "true"

/-- `AlertKey.IsValid` at the DB level, for the active network's two alert
public keys.  Each `Get` miss writes `"false"` for that key, but the value
the comparison uses stays the one returned by the failed `Get` — the `nil`
slice, i.e. the empty string.  The second `Get` runs against the store as
left by the first step.  Returns the boolean together with the updated
store. -/
def akIsValid (mainKey subKey : Bytes) (db : LDB) : Bool × LDB :=
  let d1 := dbGet db mainKey
  let db1 := match d1 with
    | some _ => db
    | none => dbPut db mainKey "false"
  let d2 := dbGet db1 subKey
  let db2 := match d2 with
    | some _ => db1
    | none => dbPut db1 subKey "false"
  ((d1.getD "" == "false") && (d2.getD "" == "false"), db2)

/-- The `UserCheckpoint` store of package `checkpoint`: one lazily opened
handle (`none` models Go `nil`). -/
structure UserCheckpoint where
  Ucdb : Option LDB
  deriving DecidableEq

/-- `UserCheckpoint.OpenDB`: a no-op returning no error on an already-open
handle; otherwise the engine's open outcome at the resolved path
(`openFile`, the `leveldb.OpenFile` result) is assigned to the handle —
which therefore stays `nil` when the open fails, with the error returned
verbatim. -/
def UserCheckpoint.openDB (uc : UserCheckpoint) (openFile : Except String LDB) :
    UserCheckpoint × Option String :=
  match uc.Ucdb with
  | some _ => (uc, none)
  | none =>
    match openFile with
    | Except.ok db => (⟨some db⟩, none)
    | Except.error e => (⟨none⟩, some e)

/-- `UserCheckpoint.CloseDB`: a no-op when not open; otherwise releases the
handle and sets it back to `nil`. -/
def UserCheckpoint.closeDB (uc : UserCheckpoint) : UserCheckpoint :=
  match uc.Ucdb with
  | none => uc
  | some _ => ⟨none⟩

/-- `UserCheckpoint.Add` on the store: dereferences the handle
unconditionally (`none` = nil-pointer panic). -/
def UserCheckpoint.add (uc : UserCheckpoint) (height : Int) (hash : String) :
    Option UserCheckpoint :=
  match uc.Ucdb with
  | none => none
  | some db => some ⟨some (ucAdd db height hash)⟩

/-- `UserCheckpoint.Delete` on the store: dereferences the handle
unconditionally. -/
def UserCheckpoint.delete (uc : UserCheckpoint) (height : Int) :
    Option UserCheckpoint :=
  match uc.Ucdb with
  | none => none
  | some db => some ⟨some (ucDelete db height)⟩

/-- `UserCheckpoint.GetMaxCheckpointHeight` on the store: dereferences the
handle unconditionally. -/
def UserCheckpoint.getMaxCheckpointHeight (uc : UserCheckpoint) : Option Int :=
  match uc.Ucdb with
  | none => none
  | some db => some (ucGetMaxCheckpointHeight db)

/-- The `VolatileCheckpoint` store of package `checkpoint`. -/
structure VolatileCheckpoint where
  Vcdb : Option LDB
  deriving DecidableEq

/-- `VolatileCheckpoint.OpenDB` (same pattern as the user store). -/
def VolatileCheckpoint.openDB (vc : VolatileCheckpoint) (openFile : Except String LDB) :
    VolatileCheckpoint × Option String :=
  match vc.Vcdb with
  | some _ => (vc, none)
  | none =>
    match openFile with
    | Except.ok db => (⟨some db⟩, none)
    | Except.error e => (⟨none⟩, some e)

/-- `VolatileCheckpoint.CloseDB`. -/
def VolatileCheckpoint.closeDB (vc : VolatileCheckpoint) : VolatileCheckpoint :=
  match vc.Vcdb with
  | none => vc
  | some _ => ⟨none⟩

/-- `VolatileCheckpoint.Set`: dereferences the handle unconditionally. -/
def VolatileCheckpoint.set (vc : VolatileCheckpoint) (height : Int) (hash : String) :
    Option VolatileCheckpoint :=
  match vc.Vcdb with
  | none => none
  | some db => some ⟨some (vcSet db height hash)⟩

/-- `VolatileCheckpoint.ClearDB`: dereferences the handle unconditionally. -/
def VolatileCheckpoint.clearDB (vc : VolatileCheckpoint) : Option VolatileCheckpoint :=
  match vc.Vcdb with
  | none => none
  | some db => some ⟨some (vcClearDB db)⟩

/-- The `AlertKey` store of package `checkpoint`. -/
structure AlertKey where
  Akdb : Option LDB
  deriving DecidableEq

/-- `AlertKey.OpenDB`. -/
def AlertKey.openDB (ak : AlertKey) (openFile : Except String LDB) :
    AlertKey × Option String :=
  match ak.Akdb with
  | some _ => (ak, none)
  | none =>
    match openFile with
    | Except.ok db => (⟨some db⟩, none)
    | Except.error e => (⟨none⟩, some e)

/-- `AlertKey.CloseDB`. -/
def AlertKey.closeDB (ak : AlertKey) : AlertKey :=
  match ak.Akdb with
  | none => ak
  | some _ => ⟨none⟩

/-- `AlertKey.Set`: dereferences the handle unconditionally. -/
def AlertKey.set (ak : AlertKey) (key : Bytes) : Option AlertKey :=
  match ak.Akdb with
  | none => none
  | some db => some ⟨some (akSet db key)⟩

/-- `AlertKey.IsValid`: dereferences the handle unconditionally; on an open
handle it returns the validity bit and the updated store. -/
def AlertKey.isValid (ak : AlertKey) (mainKey subKey : Bytes) :
    Option (Bool × AlertKey) :=
  match ak.Akdb with
  | none => none
  | some db =>
    let r := akIsValid mainKey subKey db
    some (r.1, ⟨some r.2⟩)

end Checkpoint

namespace Database

/-- The three network flag globals of package `database` (`flag.Bool`), as
they stand after `flag.Parse` (the parsing is the external `flag`
collaborator; no mutual-exclusion validation exists in this package). -/
structure Flags where
  testnet : Bool
  regtest : Bool
  simnet : Bool
  deriving DecidableEq

/-- `netName` (package `database`): textually the same function as the one
in package `checkpoint`. -/
def netName (chainParams : Params) : String :=
  match chainParams.net with
  | BitcoinNet.testNet4 => "testnet"
  | _ => chainParams.name

/-- The `activeNetParams` update sequence shared by the four `Get*DbPath`
functions of package `database`. -/
def resolveNetParams (fl : Flags) (active : Params) : Params :=
  let a1 := if fl.testnet then testNet4Params else active
  let a2 := if fl.regtest then regressionNetParams else a1
  if fl.simnet then simNetParams else a2

/-- `GetUserCheckpointDbPath` (package `database`): no configuration
validation at all — a path is always produced. -/
def getUserCheckpointDbPath (dataRoot : String) (fl : Flags) (active : Params) :
    String × Params :=
  let p := resolveNetParams fl active
  (joinPath dataRoot (netName p) (dbDirName "usercheckpoints"), p)

/-- `GetVolatileCheckpointDbPath` (package `database`). -/
def getVolatileCheckpointDbPath (dataRoot : String) (fl : Flags) (active : Params) :
    String × Params :=
  let p := resolveNetParams fl active
  (joinPath dataRoot (netName p) (dbDirName "volatilecheckpoints"), p)

/-- `GetAlertKeyDbPath` (package `database`). -/
def getAlertKeyDbPath (dataRoot : String) (fl : Flags) (active : Params) :
    String × Params :=
  let p := resolveNetParams fl active
  (joinPath dataRoot (netName p) (dbDirName "alertkey"), p)

/-- `GetDenyAddressDbPath` (package `database`). -/
def getDenyAddressDbPath (dataRoot : String) (fl : Flags) (active : Params) :
    String × Params :=
  let p := resolveNetParams fl active
  (joinPath dataRoot (netName p) (dbDirName "denyaddress"), p)

/-- `UserCheckpoint.Add` at the DB level (package `database`): textually
the same method body as in package `checkpoint`. -/
def ucAdd (db : LDB) (height : Int) (hash : String) : LDB :=
  dbPut db (sprintf020 height) hash

/-- `UserCheckpoint.Delete` at the DB level (package `database`). -/
def ucDelete (db : LDB) (height : Int) : LDB :=
  dbDelete db (sprintf020 height)

/-- `UserCheckpoint.GetMaxCheckpointHeight` at the DB level (package
`database`). -/
def ucGetMaxCheckpointHeight (db : LDB) : Int :=
  match db.getLast? with
  | none => 0
  | some e => parseInt64 e.1

/-- Run a sequence of `UserCheckpoint` mutations (package `database`). -/
def runUcOps (db : LDB) : List UcOp → LDB
  | [] => db
  | UcOp.add h s :: rest => runUcOps (ucAdd db h s) rest
  | UcOp.del h :: rest => runUcOps (ucDelete db h) rest

/-- `VolatileCheckpoint.Set` at the DB level (package `database`). -/
def vcSet (db : LDB) (height : Int) (hash : String) : LDB :=
  dbPut db (sprintf020 height) hash

/-- `VolatileCheckpoint.ClearDB` at the DB level (package `database`). -/
def vcClearDB (db : LDB) : LDB :=
  (db.map Prod.fst).foldl dbDelete db

/-- `AlertKey.Set` at the DB level (package `database`). -/
def akSet (db : LDB) (key : Bytes) : LDB := dbPut db key "true"

/-- `AlertKey.IsValid` at the DB level (package `database`): textually the
same method body as in package `checkpoint`. -/
def akIsValid (mainKey subKey : Bytes) (db : LDB) : Bool × LDB :=
  let d1 := dbGet db mainKey
  let db1 := match d1 with
    | some _ => db
    | none => dbPut db mainKey "false"
  let d2 := dbGet db1 subKey
  let db2 := match d2 with
    | some _ => db1
    | none => dbPut db1 subKey "false"
  ((d1.getD "" == "false") && (d2.getD "" == "false"), db2)

/-- The `UserCheckpoint` store of package `database`. -/
structure UserCheckpoint where
  Ucdb : Option LDB
  deriving DecidableEq

/-- `UserCheckpoint.OpenDB` (package `database`). -/
def UserCheckpoint.openDB (uc : UserCheckpoint) (openFile : Except String LDB) :
    UserCheckpoint × Option String :=
  match uc.Ucdb with
  | some _ => (uc, none)
  | none =>
    match openFile with
    | Except.ok db => (⟨some db⟩, none)
    | Except.error e => (⟨none⟩, some e)

/-- `UserCheckpoint.CloseDB` (package `database`). -/
def UserCheckpoint.closeDB (uc : UserCheckpoint) : UserCheckpoint :=
  match uc.Ucdb with
  | none => uc
  | some _ => ⟨none⟩

/-- `UserCheckpoint.Add` on the store (package `database`). -/
def UserCheckpoint.add (uc : UserCheckpoint) (height : Int) (hash : String) :
    Option UserCheckpoint :=
  match uc.Ucdb with
  | none => none
  | some db => some ⟨some (ucAdd db height hash)⟩

/-- `UserCheckpoint.Delete` on the store (package `database`). -/
def UserCheckpoint.delete (uc : UserCheckpoint) (height : Int) :
    Option UserCheckpoint :=
  match uc.Ucdb with
  | none => none
  | some db => some ⟨some (ucDelete db height)⟩

/-- `UserCheckpoint.GetMaxCheckpointHeight` on the store (package
`database`). -/
def UserCheckpoint.getMaxCheckpointHeight (uc : UserCheckpoint) : Option Int :=
  match uc.Ucdb with
  | none => none
  | some db => some (ucGetMaxCheckpointHeight db)

/-- The `VolatileCheckpoint` store of package `database`. -/
structure VolatileCheckpoint where
  Vcdb : Option LDB
  deriving DecidableEq

/-- `VolatileCheckpoint.Set` on the store (package `database`). -/
def VolatileCheckpoint.set (vc : VolatileCheckpoint) (height : Int) (hash : String) :
    Option VolatileCheckpoint :=
  match vc.Vcdb with
  | none => none
  | some db => some ⟨some (vcSet db height hash)⟩

/-- `VolatileCheckpoint.ClearDB` on the store (package `database`). -/
def VolatileCheckpoint.clearDB (vc : VolatileCheckpoint) : Option VolatileCheckpoint :=
  match vc.Vcdb with
  | none => none
  | some db => some ⟨some (vcClearDB db)⟩

/-- The `AlertKey` store of package `database`. -/
structure AlertKey where
  Akdb : Option LDB
  deriving DecidableEq

/-- `AlertKey.Set` on the store (package `database`). -/
def AlertKey.set (ak : AlertKey) (key : Bytes) : Option AlertKey :=
  match ak.Akdb with
  | none => none
  | some db => some ⟨some (akSet db key)⟩

/-- `AlertKey.IsValid` on the store (package `database`). -/
def AlertKey.isValid (ak : AlertKey) (mainKey subKey : Bytes) :
    Option (Bool × AlertKey) :=
  match ak.Akdb with
  | none => none
  | some db =>
    let r := akIsValid mainKey subKey db
    some (r.1, ⟨some r.2⟩)

/-- The `DenyAddress` store of package `database`. -/
structure DenyAddress where
  Dadb : Option LDB
  deriving DecidableEq

/-- `DenyAddress.OpenDB`. -/
def DenyAddress.openDB (da : DenyAddress) (openFile : Except String LDB) :
    DenyAddress × Option String :=
  match da.Dadb with
  | some _ => (da, none)
  | none =>
    match openFile with
    | Except.ok db => (⟨some db⟩, none)
    | Except.error e => (⟨none⟩, some e)

/-- `DenyAddress.CloseDB`. -/
def DenyAddress.closeDB (da : DenyAddress) : DenyAddress :=
  match da.Dadb with
  | none => da
  | some _ => ⟨none⟩

/-- `DenyAddress.Set`: dereferences the handle unconditionally; stores the
`"0"` presence sentinel under the address bytes. -/
def DenyAddress.set (da : DenyAddress) (address : Bytes) : Option DenyAddress :=
  match da.Dadb with
  | none => none
  | some db => some ⟨some (dbPut db address "0")⟩

end Database

/-- State mapping between the two packages' structurally identical
`UserCheckpoint` stores. -/
def ucToDatabase (uc : Checkpoint.UserCheckpoint) : Database.UserCheckpoint :=
  ⟨uc.Ucdb⟩

/-- Keys of a modelled namespace are in strictly ascending byte order (the
representation invariant of the engine model). -/
def Ordered (db : LDB) : Prop := db.Pairwise fun e f => keyLt e.1 f.1 = true

/-- Every key of the namespace is the 20-digit encoding of a non-negative
height below `2 ^ 63`. -/
def EncKeyed (db : LDB) : Prop :=
  ∀ e ∈ db, ∃ n : Nat, n < 2 ^ 63 ∧ e.1 = encodeDigits 20 n

theorem keyLt_trans : ∀ (a b c : Bytes), keyLt a b = true → keyLt b c = true →
    keyLt a c = true := by
  intro a
  induction a with
  | nil =>
    intro b c hab hbc
    cases b with
    | nil => simp [keyLt] at hab
    | cons y bs =>
      cases c with
      | nil => simp [keyLt] at hbc
      | cons z cs => simp [keyLt]
  | cons x as ih =>
    intro b c hab hbc
    cases b with
    | nil => simp [keyLt] at hab
    | cons y bs =>
      cases c with
      | nil => simp [keyLt] at hbc
      | cons z cs =>
        simp only [keyLt] at hab hbc ⊢
        split_ifs at hab hbc ⊢ <;>
          first
          | rfl
          | omega
          | exact ih bs cs hab hbc

theorem keyLt_total : ∀ (a b : Bytes), keyLt a b = false → keyLt b a = false →
    a = b := by
  intro a
  induction a with
  | nil =>
    intro b hab _
    cases b with
    | nil => rfl
    | cons y bs => simp [keyLt] at hab
  | cons x as ih =>
    intro b hab hba
    cases b with
    | nil => simp [keyLt] at hba
    | cons y bs =>
      simp only [keyLt] at hab hba
      split_ifs at hab hba
      have hx : x = y := by omega
      have := ih bs hab hba
      simp [hx, this]

theorem encodeDigits_length (w : Nat) : ∀ n, (encodeDigits w n).length = w := by
  induction w with
  | zero => intro n; rfl
  | succ w ih => intro n; simp [encodeDigits, ih]

theorem keyLt_encodeDigits_iff : ∀ (w a b : Nat), a < 10 ^ w → b < 10 ^ w →
    (keyLt (encodeDigits w a) (encodeDigits w b) = true ↔ a < b) := by
  intro w
  induction w with
  | zero =>
    intro a b ha hb
    simp only [pow_zero, Nat.lt_one_iff] at ha hb
    subst ha; subst hb
    simp [encodeDigits, keyLt]
  | succ w ih =>
    intro a b ha hb
    have hp : 0 < 10 ^ w := Nat.pos_pow_of_pos w (by norm_num)
    have hda : a / 10 ^ w < 10 := by
      rw [Nat.div_lt_iff_lt_mul hp]
      calc a < 10 ^ (w + 1) := ha
        _ = 10 * 10 ^ w := by ring
    have hdb : b / 10 ^ w < 10 := by
      rw [Nat.div_lt_iff_lt_mul hp]
      calc b < 10 ^ (w + 1) := hb
        _ = 10 * 10 ^ w := by ring
    have hma := Nat.div_add_mod a (10 ^ w)
    have hmb := Nat.div_add_mod b (10 ^ w)
    simp only [encodeDigits, keyLt, digitByte]
    split_ifs with h1 h2
    · -- head digit of a smaller: a < b
      simp only [true_iff]
      have hd : a / 10 ^ w < b / 10 ^ w := by omega
      by_contra hab
      have hba : b ≤ a := by omega
      have := Nat.div_le_div_right (c := 10 ^ w) hba
      omega
    · -- head digit of b smaller: ¬ a < b
      simp only [false_iff]
      have hd : b / 10 ^ w < a / 10 ^ w := by omega
      intro hab
      have := Nat.div_le_div_right (c := 10 ^ w) (Nat.le_of_lt hab)
      omega
    · -- equal head digits: compare the tails
      have hd : a / 10 ^ w = b / 10 ^ w := by omega
      rw [hd] at hma
      rw [ih (a % 10 ^ w) (b % 10 ^ w) (Nat.mod_lt a hp) (Nat.mod_lt b hp)]
      omega

theorem digitVal_digitByte (d : Nat) (hd : d < 10) :
    digitVal (digitByte d) = some d := by
  simp only [digitVal, digitByte]
  rw [if_pos (by omega)]
  congr 1
  omega

theorem parseDigitsAux_encodeDigits : ∀ (w n acc : Nat), n < 10 ^ w →
    parseDigitsAux (encodeDigits w n) acc = some (acc * 10 ^ w + n) := by
  intro w
  induction w with
  | zero =>
    intro n acc hn
    simp only [pow_zero, Nat.lt_one_iff] at hn
    subst hn
    simp [encodeDigits, parseDigitsAux]
  | succ w ih =>
    intro n acc hn
    have hp : 0 < 10 ^ w := Nat.pos_pow_of_pos w (by norm_num)
    have hd : n / 10 ^ w < 10 := by
      rw [Nat.div_lt_iff_lt_mul hp]
      calc n < 10 ^ (w + 1) := hn
        _ = 10 * 10 ^ w := by ring
    have hdm := Nat.div_add_mod n (10 ^ w)
    simp only [encodeDigits, parseDigitsAux]
    rw [digitVal_digitByte (n / 10 ^ w) hd]
    show parseDigitsAux (encodeDigits w (n % 10 ^ w)) (acc * 10 + n / 10 ^ w) = _
    rw [ih (n % 10 ^ w) (acc * 10 + n / 10 ^ w) (Nat.mod_lt n hp)]
    congr 1
    have hsplit : (acc * 10 + n / 10 ^ w) * 10 ^ w + n % 10 ^ w =
        acc * (10 ^ w * 10) + (10 ^ w * (n / 10 ^ w) + n % 10 ^ w) := by ring
    rw [hsplit, hdm, pow_succ]

theorem parseInt64_of_digits (b : Nat) (t : Bytes) (v : Nat)
    (hb45 : b ≠ 45) (hb43 : b ≠ 43)
    (hp : parseDigits (b :: t) = some v) (hv : v ≤ 2 ^ 63 - 1) :
    parseInt64 (b :: t) = (v : Int) := by
  simp only [parseInt64, signSplit]
  simp only [if_neg hb45, if_neg hb43]
  simp only [hp]
  simp
  omega

theorem parseInt64_encodeDigits (n : Nat) (hn : n < 2 ^ 63) :
    parseInt64 (encodeDigits 20 n) = (n : Int) := by
  have h19 : n < 10 ^ 19 := lt_of_lt_of_le hn (by norm_num)
  have h20 : n < 10 ^ 20 := lt_of_lt_of_le hn (by norm_num)
  have hdiv : n / 10 ^ 19 = 0 := Nat.div_eq_of_lt h19
  have hmod : n % 10 ^ 19 = n := Nat.mod_eq_of_lt h19
  have hcons : encodeDigits 20 n = 48 :: encodeDigits 19 n := by
    show digitByte (n / 10 ^ 19) :: encodeDigits 19 (n % 10 ^ 19) = _
    rw [hdiv, hmod]
    rfl
  have hparse : parseDigits (encodeDigits 20 n) = some n := by
    rw [hcons]
    show parseDigitsAux (48 :: encodeDigits 19 n) 0 = some n
    rw [← hcons, parseDigitsAux_encodeDigits 20 n 0 h20]
    simp
  rw [hcons] at hparse ⊢
  exact parseInt64_of_digits 48 (encodeDigits 19 n) n (by norm_num) (by norm_num)
    hparse (by omega)

theorem sprintf020_nonneg (h : Int) (h0 : 0 ≤ h) :
    sprintf020 h = encodeDigits 20 h.toNat := by
  simp [sprintf020, h0]

theorem parseInt64_sprintf020 (h : Int) (h0 : 0 ≤ h) (hlt : h < 2 ^ 63) :
    parseInt64 (sprintf020 h) = h := by
  rw [sprintf020_nonneg h h0]
  have htn : h.toNat < 2 ^ 63 := by omega
  rw [parseInt64_encodeDigits h.toNat htn]
  omega

theorem dbPut_mem : ∀ (db : LDB) (k : Bytes) (v : String) (e : Bytes × String),
    e ∈ dbPut db k v → e = (k, v) ∨ e ∈ db := by
  intro db k v
  induction db with
  | nil =>
    intro e he
    simp only [dbPut] at he
    left
    simpa using he
  | cons f rest ih =>
    intro e he
    simp only [dbPut] at he
    split_ifs at he with h1 h2
    · rcases List.mem_cons.mp he with h | h
      · left; exact h
      · right; exact h
    · rcases List.mem_cons.mp he with h | h
      · left; exact h
      · right; exact List.mem_cons_of_mem f h
    · rcases List.mem_cons.mp he with h | h
      · right; rw [h]; exact List.mem_cons_self f rest
      · rcases ih e h with h3 | h3
        · left; exact h3
        · right; exact List.mem_cons_of_mem f h3

theorem ordered_dbPut : ∀ (db : LDB) (k : Bytes) (v : String), Ordered db →
    Ordered (dbPut db k v) := by
  intro db k v
  induction db with
  | nil =>
    intro _
    simp [dbPut, Ordered]
  | cons f rest ih =>
    intro hord
    rw [Ordered, List.pairwise_cons] at hord
    obtain ⟨hf, hrest⟩ := hord
    simp only [dbPut]
    split_ifs with h1 h2
    · rw [Ordered, List.pairwise_cons]
      refine ⟨?_, ?_⟩
      · intro g hg
        rcases List.mem_cons.mp hg with h | h
        · rw [h]; exact h1
        · exact keyLt_trans _ _ _ h1 (hf g h)
      · rw [List.pairwise_cons]
        exact ⟨hf, hrest⟩
    · rw [Ordered, List.pairwise_cons]
      refine ⟨?_, hrest⟩
      intro g hg
      show keyLt k g.1 = true
      rw [h2]
      exact hf g hg
    · have h1f : keyLt k f.1 = false := by
        revert h1
        cases keyLt k f.1 <;> simp
      have hflt : keyLt f.1 k = true := by
        cases hkf : keyLt f.1 k with
        | true => rfl
        | false => exact absurd (keyLt_total k f.1 h1f hkf) h2
      rw [Ordered, List.pairwise_cons]
      refine ⟨?_, ih hrest⟩
      intro g hg
      rcases dbPut_mem rest k v g hg with h | h
      · rw [h]; exact hflt
      · exact hf g h

theorem dbDelete_sublist : ∀ (db : LDB) (k : Bytes), List.Sublist (dbDelete db k) db := by
  intro db k
  induction db with
  | nil => simp [dbDelete]
  | cons f rest ih =>
    simp only [dbDelete]
    split_ifs with h
    · exact (List.Sublist.refl rest).cons f
    · exact List.Sublist.cons₂ f ih

theorem ordered_dbDelete (db : LDB) (k : Bytes) (h : Ordered db) :
    Ordered (dbDelete db k) :=
  List.Pairwise.sublist (dbDelete_sublist db k) h

theorem encKeyed_dbPut (db : LDB) (k : Bytes) (v : String) (h : EncKeyed db)
    (hk : ∃ n : Nat, n < 2 ^ 63 ∧ k = encodeDigits 20 n) :
    EncKeyed (dbPut db k v) := by
  intro e he
  rcases dbPut_mem db k v e he with h1 | h1
  · rcases hk with ⟨n, hn, hkk⟩
    exact ⟨n, hn, by rw [h1]; exact hkk⟩
  · exact h e h1

theorem encKeyed_dbDelete (db : LDB) (k : Bytes) (h : EncKeyed db) :
    EncKeyed (dbDelete db k) :=
  fun e he => h e ((dbDelete_sublist db k).subset he)

theorem le_foldr_max : ∀ (l : List Int) (x : Int), x ∈ l → x ≤ l.foldr max 0 := by
  intro l
  induction l with
  | nil =>
    intro x hx
    simp at hx
  | cons a t ih =>
    intro x hx
    show x ≤ max a (t.foldr max 0)
    rcases List.mem_cons.mp hx with h | h
    · rw [h]; exact le_max_left _ _
    · exact le_trans (ih x h) (le_max_right _ _)

theorem foldr_max_mem : ∀ (l : List Int), l ≠ [] → (∀ x ∈ l, 0 ≤ x) →
    l.foldr max 0 ∈ l := by
  intro l
  induction l with
  | nil =>
    intro hne _
    exact absurd rfl hne
  | cons a t ih =>
    intro _ hnn
    cases t with
    | nil =>
      show max a 0 ∈ [a]
      have : max a 0 = a := max_eq_left (hnn a (by simp))
      simp [this]
    | cons b t2 =>
      show max a (List.foldr max 0 (b :: t2)) ∈ a :: b :: t2
      have hmem : List.foldr max 0 (b :: t2) ∈ b :: t2 :=
        ih (by simp) (fun x hx => hnn x (List.mem_cons_of_mem a hx))
      rcases max_choice a (List.foldr max 0 (b :: t2)) with h | h
      · rw [h]; exact List.mem_cons_self a _
      · rw [h]; exact List.mem_cons_of_mem a hmem

theorem getMax_eq_foldr : ∀ (db : LDB), Ordered db → EncKeyed db →
    Checkpoint.ucGetMaxCheckpointHeight db =
      (Checkpoint.storedHeights db).foldr max 0 := by
  intro db
  induction db with
  | nil =>
    intro _ _
    rfl
  | cons e rest ih =>
    intro hord henc
    rw [Ordered, List.pairwise_cons] at hord
    obtain ⟨he, hrest⟩ := hord
    cases rest with
    | nil =>
      obtain ⟨n, hn, hkey⟩ := henc e (by simp)
      have hpe : parseInt64 e.1 = (n : Int) := by
        rw [hkey]; exact parseInt64_encodeDigits n hn
      show parseInt64 e.1 = max (parseInt64 e.1) 0
      rw [hpe]
      exact (max_eq_left (Int.natCast_nonneg n)).symm
    | cons f t =>
      have henc2 : EncKeyed (f :: t) := fun g hg => henc g (List.mem_cons_of_mem e hg)
      have hmax : Checkpoint.ucGetMaxCheckpointHeight (e :: f :: t) =
          Checkpoint.ucGetMaxCheckpointHeight (f :: t) := by
        simp only [Checkpoint.ucGetMaxCheckpointHeight, List.getLast?_cons_cons]
      rw [hmax, ih hrest henc2]
      obtain ⟨na, hna, hka⟩ := henc e (by simp)
      obtain ⟨nb, hnb, hkb⟩ := henc2 f (by simp)
      have hlt : keyLt e.1 f.1 = true := he f (by simp)
      have hnab : na < nb := by
        rw [hka, hkb] at hlt
        exact (keyLt_encodeDigits_iff 20 na nb (lt_of_lt_of_le hna (by norm_num))
          (lt_of_lt_of_le hnb (by norm_num))).mp hlt
      have hpe : parseInt64 e.1 = (na : Int) := by
        rw [hka]; exact parseInt64_encodeDigits na hna
      have hpf : parseInt64 f.1 = (nb : Int) := by
        rw [hkb]; exact parseInt64_encodeDigits nb hnb
      have hmemf : parseInt64 f.1 ∈ Checkpoint.storedHeights (f :: t) := by
        simp [Checkpoint.storedHeights]
      have hle : parseInt64 e.1 ≤ (Checkpoint.storedHeights (f :: t)).foldr max 0 := by
        refine le_trans ?_ (le_foldr_max _ _ hmemf)
        rw [hpe, hpf]
        exact_mod_cast le_of_lt hnab
      show (Checkpoint.storedHeights (f :: t)).foldr max 0 =
        max (parseInt64 e.1) ((Checkpoint.storedHeights (f :: t)).foldr max 0)
      exact (max_eq_right hle).symm

theorem storedHeights_nonneg (db : LDB) (henc : EncKeyed db) :
    ∀ x ∈ Checkpoint.storedHeights db, 0 ≤ x := by
  intro x hx
  rcases List.mem_map.mp hx with ⟨e, hmem, hx⟩
  obtain ⟨n, hn, hkey⟩ := henc e hmem
  rw [← hx, hkey, parseInt64_encodeDigits n hn]
  exact Int.natCast_nonneg n

theorem runUcOps_inv : ∀ (ops : List UcOp) (db : LDB), ucOpsOk ops = true →
    Ordered db → EncKeyed db →
    Ordered (Checkpoint.runUcOps db ops) ∧ EncKeyed (Checkpoint.runUcOps db ops) := by
  intro ops
  induction ops with
  | nil =>
    intro db _ h1 h2
    exact ⟨h1, h2⟩
  | cons op rest ih =>
    intro db hok h1 h2
    have hok2 : ucOpOkB op = true ∧ ucOpsOk rest = true := by
      rw [ucOpsOk, List.all_cons] at hok
      exact Bool.and_eq_true_iff.mp hok
    cases op with
    | add h s =>
      have hb : 0 ≤ h ∧ h < 2 ^ 63 := by
        have := hok2.1
        simp [ucOpOkB] at this
        exact this
      have hkey : sprintf020 h = encodeDigits 20 h.toNat := sprintf020_nonneg h hb.1
      show Ordered (Checkpoint.runUcOps (Checkpoint.ucAdd db h s) rest) ∧ _
      refine ih (Checkpoint.ucAdd db h s) hok2.2 ?_ ?_
      · exact ordered_dbPut db _ s h1
      · refine encKeyed_dbPut db _ s h2 ⟨h.toNat, ?_, hkey⟩
        omega
    | del h =>
      show Ordered (Checkpoint.runUcOps (Checkpoint.ucDelete db h) rest) ∧ _
      refine ih (Checkpoint.ucDelete db h) hok2.2 ?_ ?_
      · exact ordered_dbDelete db _ h1
      · exact encKeyed_dbDelete db _ h2

theorem dbGet_dbPut_self : ∀ (db : LDB) (k : Bytes) (v : String),
    dbGet (dbPut db k v) k = some v := by
  intro db k v
  induction db with
  | nil => simp [dbPut, dbGet]
  | cons f rest ih =>
    simp only [dbPut]
    split_ifs with h1 h2
    · simp [dbGet]
    · simp [dbGet]
    · simp only [dbGet]
      rw [if_neg (fun hh => h2 hh.symm)]
      exact ih

theorem dbGet_dbPut_ne : ∀ (db : LDB) (k k2 : Bytes) (v : String), k ≠ k2 →
    dbGet (dbPut db k v) k2 = dbGet db k2 := by
  intro db k k2 v hne
  induction db with
  | nil => simp [dbPut, dbGet, hne]
  | cons f rest ih =>
    simp only [dbPut]
    split_ifs with h1 h2
    · simp only [dbGet]
      rw [if_neg hne]
    · simp only [dbGet]
      rw [if_neg hne]
      rw [show f.1 = k from h2.symm, if_neg hne]
    · simp only [dbGet]
      by_cases hf : f.1 = k2
      · rw [if_pos hf, if_pos hf]
      · rw [if_neg hf, if_neg hf]
        exact ih

theorem akIsValid_fst_iff (mainKey subKey : Bytes) (db : LDB) :
    (Checkpoint.akIsValid mainKey subKey db).1 = true ↔
      (dbGet db mainKey = some "false" ∧ dbGet db subKey = some "false") := by
  simp only [Checkpoint.akIsValid]
  cases hm : dbGet db mainKey with
  | none => simp [hm]
  | some s =>
    cases hs : dbGet db subKey with
    | none => simp [hm, hs]
    | some t => simp [hm, hs]

theorem akIsValid_writes (m s : Bytes) :
    dbGet (Checkpoint.akIsValid m s []).2 m = some "false" ∧
    dbGet (Checkpoint.akIsValid m s []).2 s = some "false" := by
  have hstate : (Checkpoint.akIsValid m s []).2 =
      (if m = s then dbPut [] m "false" else dbPut (dbPut [] m "false") s "false") := by
    by_cases h : m = s
    · subst h
      simp [Checkpoint.akIsValid, dbGet, dbPut]
    · simp [Checkpoint.akIsValid, dbGet, dbPut, h]
  rw [hstate]
  by_cases h : m = s
  · subst h
    rw [if_pos rfl]
    exact ⟨dbGet_dbPut_self [] m "false", dbGet_dbPut_self [] m "false"⟩
  · rw [if_neg h]
    refine ⟨?_, dbGet_dbPut_self _ s "false"⟩
    rw [dbGet_dbPut_ne _ s m "false" (fun hh => h hh.symm)]
    exact dbGet_dbPut_self [] m "false"

/-- Claim C1 (corrected): `AlertKey.IsValid` returns true iff both alert
public keys' values stored BEFORE the call are exactly `"false"`.  With
both keys absent the first call returns FALSE — the compared values are
the nil results of the failed reads — while still writing both keys as
`"false"`, so the NEXT call returns true.  After `Set` of the main key,
and likewise of the sub key, `IsValid` returns false. -/
theorem C1_amended_isValid_gate : ∀ (m s : Bytes) (db : LDB),
    ((Checkpoint.akIsValid m s db).1 = true ↔
      (dbGet db m = some "false" ∧ dbGet db s = some "false"))
    ∧ ((Checkpoint.akIsValid m s []).1 = false
        ∧ dbGet (Checkpoint.akIsValid m s []).2 m = some "false"
        ∧ dbGet (Checkpoint.akIsValid m s []).2 s = some "false"
        ∧ (Checkpoint.akIsValid m s ((Checkpoint.akIsValid m s []).2)).1 = true)
    ∧ ((Checkpoint.akIsValid m s (Checkpoint.akSet db m)).1 = false
        ∧ (Checkpoint.akIsValid m s (Checkpoint.akSet db s)).1 = false) := by
  intro m s db
  refine ⟨akIsValid_fst_iff m s db,
    ⟨?_, (akIsValid_writes m s).1, (akIsValid_writes m s).2, ?_⟩, ?_, ?_⟩
  · rw [Bool.eq_false_iff]
    intro htrue
    have h1 := ((akIsValid_fst_iff m s []).mp htrue).1
    simp [dbGet] at h1
  · exact (akIsValid_fst_iff m s _).mpr ⟨(akIsValid_writes m s).1, (akIsValid_writes m s).2⟩
  · rw [Bool.eq_false_iff]
    intro htrue
    have h1 := ((akIsValid_fst_iff m s _).mp htrue).1
    rw [Checkpoint.akSet, dbGet_dbPut_self] at h1
    exact absurd h1 (by simp)
  · rw [Bool.eq_false_iff]
    intro htrue
    have h2 := ((akIsValid_fst_iff m s _).mp htrue).2
    rw [Checkpoint.akSet, dbGet_dbPut_self] at h2
    exact absurd h2 (by simp)

/-- Claim C1 counterexample: on a fresh empty store (both alert keys
absent) the first `IsValid()` call returns `false`, not `true` as the
claim states. -/
theorem C1_counterexample_first_call :
    (Checkpoint.akIsValid [1] [2] []).1 = false := by decide

/-- Claim C2 (corrected): `loadConfig` rejects exactly the combination
testnet+simnet (its `numNets` count ignores the regtest flag) and when it
rejects, `GetUserCheckpointDbPath` exits before producing any path; other
multi-flag combinations are accepted.  Package `database` performs no
mutual-exclusion validation at all and always produces a path. -/
theorem C2_amended_network_exclusion :
    ∀ (cfg : Checkpoint.Config) (dataRoot : String) (active : Params) (fl : Database.Flags),
    (exceptOk (Checkpoint.loadConfig cfg) = !(cfg.testNet4 && cfg.simNet))
    ∧ (exceptOk (Checkpoint.getUserCheckpointDbPath dataRoot cfg active) =
        !(cfg.testNet4 && cfg.simNet))
    ∧ ((Database.getUserCheckpointDbPath dataRoot fl active).1 =
        joinPath dataRoot (Database.netName (Database.resolveNetParams fl active))
          (dbDirName "usercheckpoints")) := by
  intro cfg dataRoot active fl
  refine ⟨?_, ?_, rfl⟩
  · cases ht : cfg.testNet4 <;> cases hs : cfg.simNet <;>
      simp [Checkpoint.loadConfig, exceptOk, ht, hs]
  · cases ht : cfg.testNet4 <;> cases hs : cfg.simNet <;>
      simp [Checkpoint.getUserCheckpointDbPath, Checkpoint.loadConfig, exceptOk, ht, hs]

/-- Claim C2 counterexample: selecting testnet and regtest together — more
than one of the mutually exclusive network flags — is accepted by
`loadConfig`, and a database path is produced. -/
theorem C2_counterexample_testnet_regtest :
    exceptOk (Checkpoint.loadConfig ⟨"", true, true, false⟩) = true
    ∧ exceptOk (Checkpoint.getUserCheckpointDbPath "root" ⟨"", true, true, false⟩
        mainNetParams) = true := by
  exact ⟨by decide, by decide⟩

/-- Claim C3 (amended to non-negative heights): after any sequence of
inserts of non-negative `int64` heights and arbitrary deletes starting
from an empty namespace, `GetMaxCheckpointHeight` returns 0 when the
namespace is empty, bounds every stored height from above, and is itself
a stored height when the namespace is nonempty — i.e. it returns the
maximum height currently stored. -/
theorem C3_amended_getMax_is_max (ops : List UcOp) (hops : ucOpsOk ops = true) :
    (Checkpoint.runUcOps [] ops = [] →
      Checkpoint.ucGetMaxCheckpointHeight (Checkpoint.runUcOps [] ops) = 0)
    ∧ (∀ x ∈ Checkpoint.storedHeights (Checkpoint.runUcOps [] ops),
        x ≤ Checkpoint.ucGetMaxCheckpointHeight (Checkpoint.runUcOps [] ops))
    ∧ (Checkpoint.runUcOps [] ops ≠ [] →
        Checkpoint.ucGetMaxCheckpointHeight (Checkpoint.runUcOps [] ops) ∈
          Checkpoint.storedHeights (Checkpoint.runUcOps [] ops)) := by
  obtain ⟨hord, henc⟩ := runUcOps_inv ops [] hops (by simp [Ordered])
    (by intro e he; simp at he)
  have hfold := getMax_eq_foldr _ hord henc
  refine ⟨?_, ?_, ?_⟩
  · intro hempty
    rw [hempty]
    rfl
  · intro x hx
    rw [hfold]
    exact le_foldr_max _ x hx
  · intro hne
    rw [hfold]
    refine foldr_max_mem _ ?_ (storedHeights_nonneg _ henc)
    simp only [Checkpoint.storedHeights, ne_eq, List.map_eq_nil_iff]
    exact hne

/-- Claim C3 witness: the spec's scenario — insert heights 100, 50, 200
with hashes "a","b","c", then delete 200.  The bound hypothesis holds, the
stored height 50 is at most the returned maximum, and the returned maximum
evaluates to 100. -/
theorem C3_witness_scenario :
    ucOpsOk [UcOp.add 100 "a", UcOp.add 50 "b", UcOp.add 200 "c", UcOp.del 200] = true
    ∧ (50 : Int) ≤ Checkpoint.ucGetMaxCheckpointHeight
        (Checkpoint.runUcOps [] [UcOp.add 100 "a", UcOp.add 50 "b", UcOp.add 200 "c", UcOp.del 200])
    ∧ Checkpoint.ucGetMaxCheckpointHeight
        (Checkpoint.runUcOps [] [UcOp.add 100 "a", UcOp.add 50 "b", UcOp.add 200 "c", UcOp.del 200]) = 100 :=
  ⟨by decide,
   (C3_amended_getMax_is_max
      [UcOp.add 100 "a", UcOp.add 50 "b", UcOp.add 200 "c", UcOp.del 200]
      (by decide)).2.1 50 (by decide),
   by decide⟩

/-- Claim C3 counterexample: with negative (still `int64`-representable)
heights the returned value is not the maximum stored height — after
Add(−100) and Add(−5) the stored heights include −5, yet
`GetMaxCheckpointHeight` returns −100 (negative keys sort in reverse). -/
theorem C3_counterexample_negative_heights :
    Checkpoint.ucGetMaxCheckpointHeight
      (Checkpoint.runUcOps [] [UcOp.add (-100) "a", UcOp.add (-5) "b"]) = -100
    ∧ (-5 : Int) ∈ Checkpoint.storedHeights
        (Checkpoint.runUcOps [] [UcOp.add (-100) "a", UcOp.add (-5) "b"])
    ∧ ¬ ((-5 : Int) ≤ Checkpoint.ucGetMaxCheckpointHeight
        (Checkpoint.runUcOps [] [UcOp.add (-100) "a", UcOp.add (-5) "b"])) := by
  exact ⟨by decide, by decide, by decide⟩

/-- Claim C4 (corrected): when the last key in iteration order is
syntactically malformed — empty, or its digit part does not parse —
`GetMaxCheckpointHeight` indeed degrades to the sentinel 0; but a key
whose digits read a number outside the signed 64-bit range yields the
clamped boundary value `2 ^ 63 − 1` (resp. `−2 ^ 63` after a minus sign),
not 0. -/
theorem C4_amended_decode_failures (db : LDB) (e : Bytes × String)
    (hlast : db.getLast? = some e) :
    ((e.1 = [] ∨ parseDigits (signSplit e.1).2 = none) →
      Checkpoint.ucGetMaxCheckpointHeight db = 0)
    ∧ (∀ v : Nat, parseDigits (signSplit e.1).2 = some v →
        ((signSplit e.1).1 = false → 2 ^ 63 - 1 < v →
          Checkpoint.ucGetMaxCheckpointHeight db = 2 ^ 63 - 1)
        ∧ ((signSplit e.1).1 = true → 2 ^ 63 < v →
          Checkpoint.ucGetMaxCheckpointHeight db = -(2 ^ 63))) := by
  have hgm : Checkpoint.ucGetMaxCheckpointHeight db = parseInt64 e.1 := by
    simp [Checkpoint.ucGetMaxCheckpointHeight, hlast]
  rw [hgm]
  cases hk : e.1 with
  | nil =>
    refine ⟨fun _ => rfl, ?_⟩
    intro v hv
    simp [signSplit, parseDigits] at hv
  | cons b t =>
    constructor
    · intro hbad
      rcases hbad with hb | hb
      · exact absurd hb (by simp)
      · simp only [parseInt64]
        simp [hb]
    · intro v hv
      constructor
      · intro hsign hrange
        simp only [parseInt64]
        simp only [hv, hsign]
        simp only [Bool.false_eq_true, if_false]
        rw [if_neg (by omega)]
      · intro hsign hrange
        simp only [parseInt64]
        simp only [hv, hsign, if_true]
        rw [if_neg (by omega)]

/-- Claim C4 witness: a store whose last key is the single non-digit byte
100 — `GetMaxCheckpointHeight` returns the sentinel 0. -/
theorem C4_witness_nondigit_key :
    Checkpoint.ucGetMaxCheckpointHeight [([100], "x")] = 0 :=
  (C4_amended_decode_failures [([100], "x")] ([100], "x") (by decide)).1
    (Or.inr (by decide))

/-- Claim C4 counterexample: the key of twenty `9` bytes does not decode
as a signed 64-bit integer — its value `10 ^ 20 − 1` is out of range — yet
`GetMaxCheckpointHeight` returns the clamped value `2 ^ 63 − 1`, not the
sentinel 0 the claim requires. -/
theorem C4_counterexample_range_overflow :
    parseDigits (signSplit (List.replicate 20 57)).2 = some (10 ^ 20 - 1)
    ∧ (2 ^ 63 - 1 : Nat) < 10 ^ 20 - 1
    ∧ Checkpoint.ucGetMaxCheckpointHeight [(List.replicate 20 57, "x")] = 2 ^ 63 - 1
    ∧ Checkpoint.ucGetMaxCheckpointHeight [(List.replicate 20 57, "x")] ≠ 0 := by
  exact ⟨by decide, by decide, by decide, by decide⟩

/-- Claim C5 (corrected): the `%020d` key encoding has fixed width 20 for
every `int64` height, and decode-then-re-encode is the identity on keys of
non-negative representable heights; but lexicographic byte order of the
encoded keys matches numeric order only on NON-NEGATIVE heights — keys of
negative heights compare in reverse. -/
theorem C5_amended_key_encoding :
    (∀ h : Int, -(2 ^ 63) ≤ h → h < 2 ^ 63 → (sprintf020 h).length = 20)
    ∧ (∀ h1 h2 : Int, 0 ≤ h1 → h1 < 2 ^ 63 → 0 ≤ h2 → h2 < 2 ^ 63 →
        (keyLt (sprintf020 h1) (sprintf020 h2) = true ↔ h1 < h2))
    ∧ (∀ h : Int, 0 ≤ h → h < 2 ^ 63 →
        sprintf020 (parseInt64 (sprintf020 h)) = sprintf020 h) := by
  have hpow : (10 : Nat) ^ 20 = 100000000000000000000 := by norm_num
  have h63 : (2 : Int) ^ 63 = 9223372036854775808 := by norm_num
  refine ⟨?_, ?_, ?_⟩
  · intro h _ _
    by_cases h0 : 0 ≤ h
    · rw [sprintf020_nonneg h h0]
      exact encodeDigits_length 20 _
    · simp only [sprintf020, if_neg h0]
      simp [encodeDigits_length]
  · intro h1 h2 h10 h1lt h20 h2lt
    rw [sprintf020_nonneg h1 h10, sprintf020_nonneg h2 h20]
    have hb1 : h1.toNat < 10 ^ 20 := by rw [hpow]; rw [h63] at h1lt; omega
    have hb2 : h2.toNat < 10 ^ 20 := by rw [hpow]; rw [h63] at h2lt; omega
    rw [keyLt_encodeDigits_iff 20 _ _ hb1 hb2]
    omega
  · intro h h0 hlt
    rw [parseInt64_sprintf020 h h0 hlt]

/-- Claim C5 witness: the width at height −3, order preservation at the
pair (7, 9), and the round trip at height 12345. -/
theorem C5_witness_instances :
    (sprintf020 (-3)).length = 20
    ∧ (keyLt (sprintf020 7) (sprintf020 9) = true ↔ (7 : Int) < 9)
    ∧ sprintf020 (parseInt64 (sprintf020 12345)) = sprintf020 12345 :=
  ⟨C5_amended_key_encoding.1 (-3) (by norm_num) (by norm_num),
   C5_amended_key_encoding.2.1 7 9 (by norm_num) (by norm_num) (by norm_num) (by norm_num),
   C5_amended_key_encoding.2.2 12345 (by norm_num) (by norm_num)⟩

/-- Claim C5 counterexample: for the `int64`-representable heights −5 and
−100 the encoded keys satisfy `key(−5) < key(−100)` although `−5 > −100`,
so lexicographic key order does not match numeric order on all
representable heights. -/
theorem C5_counterexample_negative_order :
    keyLt (sprintf020 (-5)) (sprintf020 (-100)) = true ∧ ¬ ((-5 : Int) < -100) := by
  exact ⟨by decide, by decide⟩

/-- Claim C6 (confirmed): on each of the four store kinds, a second
`OpenDB` on an already-open handle is a no-op success leaving the same
usable handle; `CloseDB` is a no-op when not open (including when `OpenDB`
was never called), may be repeated without error, and resets the handle to
`nil`, after which the store reopens successfully. -/
theorem C6_open_close_lifecycle : ∀ (db : LDB) (r : Except String LDB)
    (uc : Checkpoint.UserCheckpoint) (vc : Checkpoint.VolatileCheckpoint)
    (ak : Checkpoint.AlertKey) (da : Database.DenyAddress),
    (Checkpoint.UserCheckpoint.openDB ⟨some db⟩ r = (⟨some db⟩, none)
      ∧ Checkpoint.UserCheckpoint.closeDB ⟨none⟩ = ⟨none⟩
      ∧ Checkpoint.UserCheckpoint.closeDB (Checkpoint.UserCheckpoint.closeDB uc) =
          Checkpoint.UserCheckpoint.closeDB uc
      ∧ (Checkpoint.UserCheckpoint.closeDB uc).Ucdb = none
      ∧ Checkpoint.UserCheckpoint.openDB (Checkpoint.UserCheckpoint.closeDB uc)
          (Except.ok db) = (⟨some db⟩, none))
    ∧ (Checkpoint.VolatileCheckpoint.openDB ⟨some db⟩ r = (⟨some db⟩, none)
      ∧ Checkpoint.VolatileCheckpoint.closeDB ⟨none⟩ = ⟨none⟩
      ∧ Checkpoint.VolatileCheckpoint.closeDB (Checkpoint.VolatileCheckpoint.closeDB vc) =
          Checkpoint.VolatileCheckpoint.closeDB vc
      ∧ (Checkpoint.VolatileCheckpoint.closeDB vc).Vcdb = none
      ∧ Checkpoint.VolatileCheckpoint.openDB (Checkpoint.VolatileCheckpoint.closeDB vc)
          (Except.ok db) = (⟨some db⟩, none))
    ∧ (Checkpoint.AlertKey.openDB ⟨some db⟩ r = (⟨some db⟩, none)
      ∧ Checkpoint.AlertKey.closeDB ⟨none⟩ = ⟨none⟩
      ∧ Checkpoint.AlertKey.closeDB (Checkpoint.AlertKey.closeDB ak) =
          Checkpoint.AlertKey.closeDB ak
      ∧ (Checkpoint.AlertKey.closeDB ak).Akdb = none
      ∧ Checkpoint.AlertKey.openDB (Checkpoint.AlertKey.closeDB ak)
          (Except.ok db) = (⟨some db⟩, none))
    ∧ (Database.DenyAddress.openDB ⟨some db⟩ r = (⟨some db⟩, none)
      ∧ Database.DenyAddress.closeDB ⟨none⟩ = ⟨none⟩
      ∧ Database.DenyAddress.closeDB (Database.DenyAddress.closeDB da) =
          Database.DenyAddress.closeDB da
      ∧ (Database.DenyAddress.closeDB da).Dadb = none
      ∧ Database.DenyAddress.openDB (Database.DenyAddress.closeDB da)
          (Except.ok db) = (⟨some db⟩, none)) := by
  intro db r uc vc ak da
  obtain ⟨ou⟩ := uc
  obtain ⟨ov⟩ := vc
  obtain ⟨oa⟩ := ak
  obtain ⟨od⟩ := da
  cases ou <;> cases ov <;> cases oa <;> cases od <;>
    exact ⟨⟨rfl, rfl, rfl, rfl, rfl⟩, ⟨rfl, rfl, rfl, rfl, rfl⟩,
      ⟨rfl, rfl, rfl, rfl, rfl⟩, ⟨rfl, rfl, rfl, rfl, rfl⟩⟩

/-- Claim C7 (confirmed): every resolved namespace path is
`<dataRoot>/<networkDirName>/<prefix>_leveldb`, where the directory name
is the network's canonical name for every network except TestNet4, which
maps to the fixed name `"testnet"`; re-resolving with the network state a
first call produced yields the same parameters, hence the same path
(determinism of repeated resolution). -/
theorem C7_path_derivation :
    (∀ p : Params, Checkpoint.netName p =
      (if p.net = BitcoinNet.testNet4 then "testnet" else p.name))
    ∧ (Checkpoint.netName mainNetParams = "mainnet"
       ∧ Checkpoint.netName testNet4Params = "testnet"
       ∧ Checkpoint.netName regressionNetParams = "regtest"
       ∧ Checkpoint.netName simNetParams = "simnet"
       ∧ testNet4Params.name ≠ "testnet")
    ∧ (∀ (dataRoot : String) (cfg : Checkpoint.Config) (active : Params),
        Checkpoint.getUserCheckpointDbPath dataRoot cfg active =
          (if cfg.testNet4 && cfg.simNet then Except.error ()
           else Except.ok (joinPath dataRoot
              (Checkpoint.netName (Checkpoint.resolveNetParams cfg active))
              (dbDirName "usercheckpoints"), Checkpoint.resolveNetParams cfg active))
        ∧ Checkpoint.getVolatileCheckpointDbPath dataRoot cfg active =
          (if cfg.testNet4 && cfg.simNet then Except.error ()
           else Except.ok (joinPath dataRoot
              (Checkpoint.netName (Checkpoint.resolveNetParams cfg active))
              (dbDirName "volatilecheckpoints"), Checkpoint.resolveNetParams cfg active))
        ∧ Checkpoint.getAlertKeyDbPath dataRoot cfg active =
          (if cfg.testNet4 && cfg.simNet then Except.error ()
           else Except.ok (joinPath dataRoot
              (Checkpoint.netName (Checkpoint.resolveNetParams cfg active))
              (dbDirName "alertkey"), Checkpoint.resolveNetParams cfg active)))
    ∧ (∀ (dataRoot : String) (fl : Database.Flags) (active : Params),
        Database.getUserCheckpointDbPath dataRoot fl active =
          (joinPath dataRoot (Database.netName (Database.resolveNetParams fl active))
            (dbDirName "usercheckpoints"), Database.resolveNetParams fl active)
        ∧ Database.getVolatileCheckpointDbPath dataRoot fl active =
          (joinPath dataRoot (Database.netName (Database.resolveNetParams fl active))
            (dbDirName "volatilecheckpoints"), Database.resolveNetParams fl active)
        ∧ Database.getAlertKeyDbPath dataRoot fl active =
          (joinPath dataRoot (Database.netName (Database.resolveNetParams fl active))
            (dbDirName "alertkey"), Database.resolveNetParams fl active)
        ∧ Database.getDenyAddressDbPath dataRoot fl active =
          (joinPath dataRoot (Database.netName (Database.resolveNetParams fl active))
            (dbDirName "denyaddress"), Database.resolveNetParams fl active))
    ∧ (∀ (cfg : Checkpoint.Config) (active : Params),
        Checkpoint.resolveNetParams cfg (Checkpoint.resolveNetParams cfg active) =
          Checkpoint.resolveNetParams cfg active)
    ∧ (∀ (fl : Database.Flags) (active : Params),
        Database.resolveNetParams fl (Database.resolveNetParams fl active) =
          Database.resolveNetParams fl active) := by
  refine ⟨?_, ⟨rfl, rfl, rfl, rfl, by decide⟩, ?_, fun dataRoot fl active => ⟨rfl, rfl, rfl, rfl⟩, ?_, ?_⟩
  · intro p
    cases hp : p.net <;> simp [Checkpoint.netName, hp]
  · intro dataRoot cfg active
    refine ⟨?_, ?_, ?_⟩ <;>
      cases ht : cfg.testNet4 <;> cases hs : cfg.simNet <;>
        simp [Checkpoint.getUserCheckpointDbPath, Checkpoint.getVolatileCheckpointDbPath,
          Checkpoint.getAlertKeyDbPath, Checkpoint.loadConfig, ht, hs]
  · intro cfg active
    cases ht : cfg.testNet4 <;> cases hr : cfg.regressionTest <;> cases hs : cfg.simNet <;>
      simp [Checkpoint.resolveNetParams, ht, hr, hs]
  · intro fl active
    cases ht : fl.testnet <;> cases hr : fl.regtest <;> cases hs : fl.simnet <;>
      simp [Database.resolveNetParams, ht, hr, hs]

/-- Claim C9 (confirmed): every data operation dereferences the database
handle unconditionally — with a `nil` handle (`OpenDB` never called, or
`CloseDB` called) `Add`, `Set`, `Delete`, `GetMaxCheckpointHeight`,
`ClearDB` and `IsValid` on all four store kinds hit a nil-pointer
dereference (modelled as `none`) — while `OpenDB` and `CloseDB` check the
handle first and proceed safely, and the data operations succeed on an
open handle. -/
theorem C9_nil_handle_dereference : ∀ (h : Int) (s : String) (k m sk adr : Bytes) (db : LDB),
    Checkpoint.UserCheckpoint.add ⟨none⟩ h s = none
    ∧ Checkpoint.UserCheckpoint.delete ⟨none⟩ h = none
    ∧ Checkpoint.UserCheckpoint.getMaxCheckpointHeight ⟨none⟩ = none
    ∧ Checkpoint.VolatileCheckpoint.set ⟨none⟩ h s = none
    ∧ Checkpoint.VolatileCheckpoint.clearDB ⟨none⟩ = none
    ∧ Checkpoint.AlertKey.set ⟨none⟩ k = none
    ∧ Checkpoint.AlertKey.isValid ⟨none⟩ m sk = none
    ∧ Database.UserCheckpoint.add ⟨none⟩ h s = none
    ∧ Database.UserCheckpoint.delete ⟨none⟩ h = none
    ∧ Database.UserCheckpoint.getMaxCheckpointHeight ⟨none⟩ = none
    ∧ Database.VolatileCheckpoint.set ⟨none⟩ h s = none
    ∧ Database.VolatileCheckpoint.clearDB ⟨none⟩ = none
    ∧ Database.AlertKey.set ⟨none⟩ k = none
    ∧ Database.AlertKey.isValid ⟨none⟩ m sk = none
    ∧ Database.DenyAddress.set ⟨none⟩ adr = none
    ∧ Checkpoint.UserCheckpoint.openDB ⟨none⟩ (Except.ok db) = (⟨some db⟩, none)
    ∧ Checkpoint.UserCheckpoint.closeDB ⟨none⟩ = ⟨none⟩
    ∧ Database.DenyAddress.openDB ⟨none⟩ (Except.ok db) = (⟨some db⟩, none)
    ∧ Database.DenyAddress.closeDB ⟨none⟩ = ⟨none⟩
    ∧ (Checkpoint.UserCheckpoint.add ⟨some db⟩ h s).isSome = true
    ∧ (Checkpoint.AlertKey.isValid ⟨some db⟩ m sk).isSome = true := by
  intro h s k m sk adr db
  exact ⟨rfl, rfl, rfl, rfl, rfl, rfl, rfl, rfl, rfl, rfl, rfl, rfl, rfl, rfl, rfl,
    rfl, rfl, rfl, rfl, rfl, rfl⟩

/-- Claim C10 (confirmed): the two parallel implementations are
behaviorally equivalent — the same key encoding and the same logic at the
DB level for `Add`, `Delete`, `GetMaxCheckpointHeight`, `Set`, `ClearDB`,
the alert-key operations and `netName`; identical states over any
operation sequence; and an equivalent open/close lifecycle under the
evident state mapping.  The packages differ only in configuration parsing
(go-flags `loadConfig` versus `flag.Parse`; compare C2). -/
theorem C10_package_equivalence : ∀ (db : LDB) (h : Int) (s : String) (k m sk : Bytes)
    (ops : List UcOp) (uc : Checkpoint.UserCheckpoint) (r : Except String LDB) (p : Params),
    Checkpoint.ucAdd db h s = Database.ucAdd db h s
    ∧ Checkpoint.ucDelete db h = Database.ucDelete db h
    ∧ Checkpoint.ucGetMaxCheckpointHeight db = Database.ucGetMaxCheckpointHeight db
    ∧ Checkpoint.vcSet db h s = Database.vcSet db h s
    ∧ Checkpoint.vcClearDB db = Database.vcClearDB db
    ∧ Checkpoint.akSet db k = Database.akSet db k
    ∧ Checkpoint.akIsValid m sk db = Database.akIsValid m sk db
    ∧ Checkpoint.netName p = Database.netName p
    ∧ Checkpoint.runUcOps db ops = Database.runUcOps db ops
    ∧ Prod.map ucToDatabase id (Checkpoint.UserCheckpoint.openDB uc r) =
        Database.UserCheckpoint.openDB (ucToDatabase uc) r
    ∧ ucToDatabase (Checkpoint.UserCheckpoint.closeDB uc) =
        Database.UserCheckpoint.closeDB (ucToDatabase uc) := by
  intro db h s k m sk ops uc r p
  refine ⟨rfl, rfl, rfl, rfl, rfl, rfl, rfl, ?_, ?_, ?_, ?_⟩
  · obtain ⟨n, nm, a, b⟩ := p
    cases n <;> rfl
  · induction ops generalizing db with
    | nil => rfl
    | cons op rest ih =>
      cases op with
      | add hh ss =>
        simp only [Checkpoint.runUcOps, Database.runUcOps]
        exact ih _
      | del hh =>
        simp only [Checkpoint.runUcOps, Database.runUcOps]
        exact ih _
  · obtain ⟨o⟩ := uc
    cases o with
    | none => cases r <;> rfl
    | some d => rfl
  · obtain ⟨o⟩ := uc
    cases o <;> rfl
